import Mathlib

/-!
Verification of the rlox bytecode compiler and virtual machine.

This file is a shallow embedding, in Lean 4, of the rlox sources:
`scanner.rs`, `value.rs`, `gc.rs`, `chunk.rs`, `compiler.rs`, `vm.rs`.
Each Lean definition is translated from the correspondingly named Rust
item; comments name the Rust source item being modelled.

Modelling conventions:
  * Rust `&str` slices of the source are modelled as `List Char` suffixes.
  * IEEE-754 doubles are modelled as unnormalized rationals (`F64`,
    an `Int` numerator/denominator pair).  The claims under verification
    never exercise float-specific behavior (NaN, infinity, rounding).
  * The process-global string interner (`gc.rs`) is modelled as a list of
    stored strings in insertion order; a `&'static str` handed out by the
    interner is modelled as `StrRef`, a pair of the address-like index of
    the owning allocation and the character data it points to.
  * Rust panics are modelled as explicit `panicked`/junk outcomes, noted
    at each site.
  * Loops are modelled either structurally over the consumed text or by a
    fuel parameter (`none` = the loop has not finished within the given
    fuel); all recursion is structural so that the kernel can evaluate.
  * Messages printed to stderr by `Parser::error_at` are accumulated in
    an `errors` field so that reported compile errors are observable.
-/

set_option maxRecDepth 100000

---------------------------------------------------------------------------
-- §1  Scanner (scanner.rs)
---------------------------------------------------------------------------

/-- `scanner.rs` `enum Token`: what type of lexeme you have. -/
inductive Token where
  | LeftParen | RightParen
  | LeftBrace | RightBrace
  | Comma | Dot | Minus | Plus
  | Semicolon | Star | Slash
  | Question | Colon
  | Bang | BangEqual
  | Equal | EqualEqual
  | Greater | GreaterEqual
  | Less | LessEqual
  | Identifier | StrLiteral | Number
  | And | Class | Else | False
  | For | Fun | If | Nil | Or
  | Print | Return | Super | This
  | True | Var | While
  | Error | Eof
  deriving DecidableEq, Repr

/-- `scanner.rs` `struct Lexeme`: token kind, text slice, line. -/
structure Lexeme where
  token : Token
  text : List Char
  line : Nat
  deriving DecidableEq, Repr

/-- `scanner.rs` `struct Scanner`: `start` and `current` are suffixes of the
source; `line` is the current line counter. -/
structure Scanner where
  start : List Char
  current : List Char
  line : Nat
  deriving DecidableEq, Repr

/-- `scanner.rs` `fn is_id_start`. -/
def isIdStart (c : Char) : Bool :=
  c.isAlpha || c = '_'

/-- `scanner.rs` `fn is_id_continue`. -/
def isIdContinue (c : Char) : Bool :=
  isIdStart c || c.isDigit

/-- `Scanner::skip_whitespace`: skips spaces, tabs, carriage returns and
line comments; counts newlines.  The Boolean flag is true while inside a
`//` line comment (the inner `while` of the Rust loop).  Returns the
remaining text and the updated line counter. -/
def skipWhitespace : List Char → Nat → Bool → List Char × Nat
  | [], line, _ => ([], line)
  | c :: rest, line, true =>
    -- inside a line comment: consume until the newline (the newline itself
    -- is consumed by the outer '\n' arm in the Rust code; consuming it here
    -- with the same line increment is observably identical)
    if c = '\n' then skipWhitespace rest (line + 1) false
    else skipWhitespace rest line true
  | c :: rest, line, false =>
    if c = ' ' || c = '\r' || c = '\t' then skipWhitespace rest line false
    else if c = '\n' then skipWhitespace rest (line + 1) false
    else if c = '/' then
      match rest with
      | '/' :: rest2 => skipWhitespace rest2 line true
      | _ => (c :: rest, line)
    else (c :: rest, line)

/-- `Scanner::make_lexeme`: the text is the span between `start` and
`current`. -/
def Scanner.makeLexeme (s : Scanner) (token : Token) : Lexeme :=
  { token := token
    text := s.start.take (s.start.length - s.current.length)
    line := s.line }

/-- `Scanner::error_token`: a lexeme whose text is the error message. -/
def Scanner.errorToken (s : Scanner) (message : List Char) : Lexeme :=
  { token := Token.Error, text := message, line := s.line }

/-- `Scanner::make_sentinel`. -/
def Scanner.makeSentinel (message : List Char) : Lexeme :=
  { token := Token.Error, text := message, line := 0 }

/-- `Scanner::check_keyword`: the scanned identifier is compared against the
keyword text; exact match required. -/
def checkKeyword (lexeme : List Char) (keywordText : List Char) (keyword : Token) : Token :=
  if lexeme = keywordText then keyword else Token.Identifier

/-- `Scanner::identifier_type`: trie-style first-letter dispatch. -/
def identifierType (lexeme : List Char) : Token :=
  match lexeme with
  | 'a' :: _ => checkKeyword lexeme "and".toList Token.And
  | 'c' :: _ => checkKeyword lexeme "class".toList Token.Class
  | 'e' :: _ => checkKeyword lexeme "else".toList Token.Else
  | 'f' :: 'a' :: _ => checkKeyword lexeme "false".toList Token.False
  | 'f' :: 'o' :: _ => checkKeyword lexeme "for".toList Token.For
  | 'f' :: 'u' :: _ => checkKeyword lexeme "fun".toList Token.Fun
  | 'i' :: _ => checkKeyword lexeme "if".toList Token.If
  | 'n' :: _ => checkKeyword lexeme "nil".toList Token.Nil
  | 'o' :: _ => checkKeyword lexeme "or".toList Token.Or
  | 'p' :: _ => checkKeyword lexeme "print".toList Token.Print
  | 'r' :: _ => checkKeyword lexeme "return".toList Token.Return
  | 's' :: _ => checkKeyword lexeme "super".toList Token.Super
  | 't' :: 'h' :: _ => checkKeyword lexeme "this".toList Token.This
  | 't' :: 'r' :: _ => checkKeyword lexeme "true".toList Token.True
  | 'v' :: _ => checkKeyword lexeme "var".toList Token.Var
  | 'w' :: _ => checkKeyword lexeme "while".toList Token.While
  | _ => Token.Identifier

/-- The `while is_id_continue(self.peek())` loop of `Scanner::identifier`:
how many further characters belong to the identifier. -/
def identLen : List Char → Nat
  | [] => 0
  | c :: rest => if isIdContinue c then identLen rest + 1 else 0

/-- The digit-consuming `while` loops of `Scanner::number`. -/
def digitLen : List Char → Nat
  | [] => 0
  | c :: rest => if c.isDigit then digitLen rest + 1 else 0

/-- The scanning loop of `Scanner::string`: looks for the closing quote,
counting newlines.  Returns `none` when the string is unterminated,
otherwise the number of characters up to and including the closing quote
and the updated line count. -/
def stringLen : List Char → Nat → Option (Nat × Nat)
  | [], _ => none
  | c :: rest, line =>
    if c = '"' then some (1, line)
    else
      match stringLen rest (if c = '\n' then line + 1 else line) with
      | none => none
      | some (n, line2) => some (n + 1, line2)

/-- `Scanner::scan_token`: yields the next lexeme and the advanced scanner. -/
def Scanner.scanToken (s : Scanner) : Lexeme × Scanner :=
  let (rest, line) := skipWhitespace s.current s.line false
  let s : Scanner := { start := rest, current := rest, line := line }
  match rest with
  | [] => (s.makeLexeme Token.Eof, s)   -- is_at_end
  | c :: cs =>
    -- self.advance()
    let s1 : Scanner := { s with current := cs }
    if isIdStart c then
      -- Scanner::identifier
      let n := identLen cs
      let s2 : Scanner := { s1 with current := cs.drop n }
      (s2.makeLexeme (identifierType (s2.start.take (s2.start.length - s2.current.length))), s2)
    else if c.isDigit then
      -- Scanner::number
      let n := digitLen cs
      let afterInt := cs.drop n
      let s2 : Scanner :=
        match afterInt with
        | '.' :: d :: _ =>
          if d.isDigit then
            -- consume the decimal point and the digits after it
            let frac := digitLen (afterInt.drop 1)
            { s1 with current := afterInt.drop (1 + frac) }
          else { s1 with current := afterInt }
        | _ => { s1 with current := afterInt }
      (s2.makeLexeme Token.Number, s2)
    else
      match c with
      | '(' => (s1.makeLexeme Token.LeftParen, s1)
      | ')' => (s1.makeLexeme Token.RightParen, s1)
      | '{' => (s1.makeLexeme Token.LeftBrace, s1)
      | '}' => (s1.makeLexeme Token.RightBrace, s1)
      | ';' => (s1.makeLexeme Token.Semicolon, s1)
      | ',' => (s1.makeLexeme Token.Comma, s1)
      | '.' => (s1.makeLexeme Token.Dot, s1)
      | '-' => (s1.makeLexeme Token.Minus, s1)
      | '+' => (s1.makeLexeme Token.Plus, s1)
      | '/' => (s1.makeLexeme Token.Slash, s1)
      | '*' => (s1.makeLexeme Token.Star, s1)
      | '?' => (s1.makeLexeme Token.Question, s1)
      | ':' => (s1.makeLexeme Token.Colon, s1)
      | '!' =>
        match cs with
        | '=' :: cs2 => ({ s1 with current := cs2 }.makeLexeme Token.BangEqual, { s1 with current := cs2 })
        | _ => (s1.makeLexeme Token.Bang, s1)
      | '=' =>
        match cs with
        | '=' :: cs2 => ({ s1 with current := cs2 }.makeLexeme Token.EqualEqual, { s1 with current := cs2 })
        | _ => (s1.makeLexeme Token.Equal, s1)
      | '<' =>
        match cs with
        | '=' :: cs2 => ({ s1 with current := cs2 }.makeLexeme Token.LessEqual, { s1 with current := cs2 })
        | _ => (s1.makeLexeme Token.Less, s1)
      | '>' =>
        match cs with
        | '=' :: cs2 => ({ s1 with current := cs2 }.makeLexeme Token.GreaterEqual, { s1 with current := cs2 })
        | _ => (s1.makeLexeme Token.Greater, s1)
      | '"' =>
        -- Scanner::string (the opening quote has been consumed)
        match stringLen cs s1.line with
        | none =>
          -- unterminated string: newlines inside have been counted
          let lineEnd := (skipStringLines cs s1.line)
          ({ s1 with current := [], line := lineEnd }.errorToken "Unterminated string".toList,
           { s1 with current := [], line := lineEnd })
        | some (n, line2) =>
          let s2 : Scanner := { s1 with current := cs.drop n, line := line2 }
          (s2.makeLexeme Token.StrLiteral, s2)
      | _ => (s1.errorToken "Unexpected character".toList, s1)
where
  /-- Line counting performed by the unterminated-string loop before it
  runs off the end of the input. -/
  skipStringLines : List Char → Nat → Nat
  | [], line => line
  | c :: rest, line => skipStringLines rest (if c = '\n' then line + 1 else line)

/-- `Scanner::new`. -/
def Scanner.new (source : List Char) : Scanner :=
  { start := source, current := source, line := 1 }

---------------------------------------------------------------------------
-- §2  Values and the string interner (value.rs, gc.rs)
---------------------------------------------------------------------------

/-- Model of an IEEE-754 double (`f64`) as an unnormalized rational.  The
claims under verification never exercise float-specific behavior; the
literals that do occur are represented exactly. -/
structure F64 where
  num : Int
  den : Int
  deriving DecidableEq, Repr

def F64.add (a b : F64) : F64 := ⟨a.num * b.den + b.num * a.den, a.den * b.den⟩

def F64.sub (a b : F64) : F64 := ⟨a.num * b.den - b.num * a.den, a.den * b.den⟩

def F64.mul (a b : F64) : F64 := ⟨a.num * b.num, a.den * b.den⟩

def F64.div (a b : F64) : F64 := ⟨a.num * b.den, a.den * b.num⟩

def F64.neg (a : F64) : F64 := ⟨-a.num, a.den⟩

/-- `f64` equality (`==`), on the exactly represented values. -/
def F64.beq (a b : F64) : Bool := a.num * b.den = b.num * a.den

/-- `f64` strict order (`<`), on the exactly represented values. -/
def F64.blt (a b : F64) : Bool := a.num * b.den < b.num * a.den

/-- `f64` strict order (`>`). -/
def F64.bgt (a b : F64) : Bool := b.num * a.den < a.num * b.den

/-- Model of a `&'static str` handed out by the interner (`gc.rs`): the
address-like index of the owning allocation inside the interner, paired
with the character data it points to. -/
structure StrRef where
  addr : Nat
  data : String
  deriving DecidableEq, Repr

/-- The string storage of `gc.rs` `struct GC`: the stored strings in
insertion order (the `HashSet<String>` never removes or replaces an
already-present allocation). -/
abbrev GCStrings := List String

/-- Index of the allocation owning string `s` inside the store. -/
def gcIdxOf : List String → String → Nat
  | [], _ => 0
  | x :: rest, s => if x = s then 0 else gcIdxOf rest s + 1

/-- `GC::store_string`: inserts the owned string if absent and returns a
reference to the stored allocation (`self.strings.insert(owned)` keeps the
existing allocation if one is already present; `get` then returns a
reference to that original allocation). -/
def GC.storeString (gc : GCStrings) (owned : String) : StrRef × GCStrings :=
  if owned ∈ gc then (⟨gcIdxOf gc owned, owned⟩, gc)
  else (⟨List.length gc, owned⟩, gc ++ [owned])

/-- `value.rs` `enum Value`. -/
inductive Value where
  | Nil : Value
  | Boolean : Bool → Value
  | Number : F64 → Value
  | LoxString : StrRef → Value
  deriving DecidableEq, Repr

/-- `Value::is_falsy`. -/
def Value.isFalsy : Value → Bool
  | Value.Nil => true
  | Value.Boolean false => true
  | _ => false

/-- `Value::to_str`. -/
def Value.toStr : Value → Option StrRef
  | Value.LoxString s => some s
  | _ => none

/-- `Value::equal`: Lox equality.  Strings are `&str`s compared by `==`,
which compares the pointed-to character data. -/
def Value.equal : Value → Value → Bool
  | Value.Number a, Value.Number b => F64.beq a b
  | Value.Boolean a, Value.Boolean b => a = b
  | Value.Nil, Value.Nil => true
  | Value.LoxString a, Value.LoxString b => a.data = b.data
  | _, _ => false

/-- `impl From<String> for Value` / `impl From<&str> for Value`: stores the
string in the active GC and wraps the returned reference. -/
def Value.ofStr (gc : GCStrings) (text : List Char) : Value × GCStrings :=
  let (r, gc') := GC.storeString gc (String.mk text)
  (Value.LoxString r, gc')

---------------------------------------------------------------------------
-- §3  Chunk (chunk.rs)
---------------------------------------------------------------------------

/-- `chunk.rs` `enum OpCode` (discriminants 0..=20 as assigned by
`#[repr(u8)]` in declaration order). -/
inductive OpCode where
  | Constant | Nil | True | False
  | Pop
  | GetLocal | SetLocal
  | GetGlobal | DefineGlobal | SetGlobal
  | Equal | Greater | Less
  | Add | Subtract | Multiply | Divide
  | Not | Negate
  | Print | Return
  deriving DecidableEq, Repr

/-- The `u8` discriminant of an opcode (`opcode as u8`). -/
def OpCode.toByte : OpCode → Nat
  | .Constant => 0 | .Nil => 1 | .True => 2 | .False => 3
  | .Pop => 4
  | .GetLocal => 5 | .SetLocal => 6
  | .GetGlobal => 7 | .DefineGlobal => 8 | .SetGlobal => 9
  | .Equal => 10 | .Greater => 11 | .Less => 12
  | .Add => 13 | .Subtract => 14 | .Multiply => 15 | .Divide => 16
  | .Not => 17 | .Negate => 18
  | .Print => 19 | .Return => 20

/-- `TryFrom<u8> for OpCode` (the `with_try_from_u8!` macro) composed with
`BytecodeEntry::as_opcode`. -/
def byteToOpcode (b : Nat) : Option OpCode :=
  if b = 0 then some .Constant else if b = 1 then some .Nil
  else if b = 2 then some .True else if b = 3 then some .False
  else if b = 4 then some .Pop
  else if b = 5 then some .GetLocal else if b = 6 then some .SetLocal
  else if b = 7 then some .GetGlobal else if b = 8 then some .DefineGlobal
  else if b = 9 then some .SetGlobal
  else if b = 10 then some .Equal else if b = 11 then some .Greater
  else if b = 12 then some .Less
  else if b = 13 then some .Add else if b = 14 then some .Subtract
  else if b = 15 then some .Multiply else if b = 16 then some .Divide
  else if b = 17 then some .Not else if b = 18 then some .Negate
  else if b = 19 then some .Print else if b = 20 then some .Return
  else none

/-- `chunk.rs` `struct Chunk`: byte stream, constant pool, parallel line
table. -/
structure Chunk where
  code : List Nat
  constants : List Value
  lines : List Nat
  deriving DecidableEq, Repr

/-- `Chunk::write`: appends a byte and its line in parallel. -/
def Chunk.write (c : Chunk) (payload : Nat) (line : Nat) : Chunk :=
  { c with code := c.code ++ [payload], lines := c.lines ++ [line] }

/-- `Chunk::write_opcode` (without an operand). -/
def Chunk.writeOpcode (c : Chunk) (op : OpCode) (line : Nat) : Chunk :=
  c.write op.toByte line

/-- `Chunk::write_opcode(..).with_operand(..)`: the `WrittenOpcode` handle
appends the operand byte with the same line as its opcode. -/
def Chunk.writeOpcodeWithOperand (c : Chunk) (op : OpCode) (operand : Nat) (line : Nat) : Chunk :=
  (c.write op.toByte line).write operand line

/-- `Chunk::add_constant`: computes the next index, ALWAYS appends to the
constant pool, and then returns the index only if it fits in a `u8`
(`u8::try_from(index).ok()`). -/
def Chunk.addConstant (c : Chunk) (value : Value) : Option Nat × Chunk :=
  let index := c.constants.length
  let c' := { c with constants := c.constants ++ [value] }
  (if index < 256 then some index else none, c')

/-- `Chunk::line_number_for`. -/
def Chunk.lineNumberFor (c : Chunk) (offset : Nat) : Option Nat :=
  c.lines.get? offset

/-- `Chunk::new` / `Chunk::default`. -/
def Chunk.new : Chunk := { code := [], constants := [], lines := [] }

---------------------------------------------------------------------------
-- §4  Compiler state (compiler.rs: struct Parser + struct Compiler)
---------------------------------------------------------------------------

/-- `compiler.rs` `struct Local`: a local variable record.  `depth = none`
is the "declared but uninitialized" state. -/
structure Local where
  name : Lexeme
  depth : Option Int
  deriving DecidableEq, Repr

/-- `Local::text`. -/
def Local.text (l : Local) : List Char := l.name.text

/-- `Local::is_uninitialized`. -/
def Local.isUninit (l : Local) : Bool := l.depth.isNone

/-- `Local::in_outer_scope`. -/
def Local.inOuterScope (l : Local) (scopeDepth : Int) : Bool :=
  match l.depth with
  | some depth => depth < scopeDepth
  | none => false

/-- The combined state of `compiler.rs` `struct Parser` (scanner, current,
previous, had_error, panic_mode) and `struct Compiler` (compiling_chunk,
locals, scope_depth), plus the active GC's string store and the list of
error messages the parser has reported to stderr (for observability).
The `locals` Vec is modelled newest-first: the Vec's push/pop end is the
head of the list, so slot `i` of the Vec is position `length - 1 - i`. -/
structure CState where
  scanner : Scanner
  current : Lexeme
  previous : Lexeme
  hadError : Bool
  panicMode : Bool
  errors : List String
  chunk : Chunk
  locals : List Local
  scopeDepth : Int
  gc : GCStrings
  deriving DecidableEq, Repr

/-- `Parser::error_at`: suppressed entirely in panic mode; otherwise sets
both flags and reports the message (the `[line N] Error at ...` rendering
to stderr is projected to the message text). -/
def errorAt (st : CState) (_lexeme : Lexeme) (message : String) : CState :=
  if st.panicMode then st
  else { st with panicMode := true, hadError := true, errors := st.errors ++ [message] }

/-- `Parser::error`: located at the previous lexeme. -/
def Parser.error (st : CState) (message : String) : CState :=
  errorAt st st.previous message

/-- `Parser::error_at_current`. -/
def Parser.errorAtCurrent (st : CState) (message : String) : CState :=
  errorAt st st.current message

/-- The get-tokens-until-non-error loop inside `Parser::advance`.  Each
Error lexeme consumes at least one character, so fuel equal to the
remaining source length plus one always suffices (the 0 case is
unreachable). -/
def advanceLoop : Nat → CState → CState
  | 0, st => st
  | n + 1, st =>
    let (lex, sc) := st.scanner.scanToken
    let st := { st with scanner := sc, current := lex }
    if lex.token = Token.Error then
      advanceLoop n (Parser.errorAtCurrent st (String.mk lex.text))
    else st

/-- `Parser::advance`. -/
def Parser.advance (st : CState) : CState :=
  let st := { st with previous := st.current }
  advanceLoop (st.scanner.current.length + 1) st

/-- `Parser::consume`. -/
def Parser.consume (st : CState) (desired : Token) (message : String) : CState :=
  if st.current.token = desired then Parser.advance st
  else Parser.errorAtCurrent st message

/-- `Parser::check`. -/
def Parser.check (st : CState) (token : Token) : Bool :=
  st.current.token == token

/-- `Parser::match_and_advance`: returns whether the token was matched,
with the (possibly advanced) state. -/
def Parser.matchAndAdvance (st : CState) (desired : Token) : Bool × CState :=
  if st.current.token = desired then (true, Parser.advance st)
  else (false, st)

/-- The statement-boundary token set of `Parser::synchronize`. -/
def isSyncPoint : Token → Bool
  | .Class | .Fun | .Var | .For | .If | .While | .Print | .Return => true
  | _ => false

/-- The `while` loop of `Parser::synchronize`, with fuel.  NOTE (faithful
to the source): the loop body never advances the token stream, so its
state is unchanged from one iteration to the next. -/
def syncLoopF : Nat → CState → Option CState
  | 0, _ => none
  | n + 1, st =>
    if st.current.token = Token.Eof then some st
    else if st.previous.token = Token.Semicolon then some st
    else if isSyncPoint st.current.token then some st
    else syncLoopF n st

/-- `Parser::synchronize`: clears panic mode, then loops. -/
def synchronizeF (fuel : Nat) (st : CState) : Option CState :=
  syncLoopF fuel { st with panicMode := false }

---------------------------------------------------------------------------
-- §5  Precedence and the Pratt rule table (compiler.rs)
---------------------------------------------------------------------------

/-- `compiler.rs` `enum Precedence`. -/
inductive Precedence where
  | None | Assignment | Or | And | Equality | Comparison
  | Term | Factor | Unary | Call | Primary
  deriving DecidableEq, Repr

/-- The derived `PartialOrd` on `Precedence` compares declaration order. -/
def Precedence.toNat : Precedence → Nat
  | .None => 0 | .Assignment => 1 | .Or => 2 | .And => 3 | .Equality => 4
  | .Comparison => 5 | .Term => 6 | .Factor => 7 | .Unary => 8 | .Call => 9
  | .Primary => 10

/-- `Precedence::higher_precedence`.  The `Primary` case panics in Rust and
is unreachable from the rule table; it is modelled as `Primary`. -/
def Precedence.higher : Precedence → Precedence
  | .None => .Assignment | .Assignment => .Or | .Or => .And | .And => .Equality
  | .Equality => .Comparison | .Comparison => .Term | .Term => .Factor
  | .Factor => .Unary | .Unary => .Call | .Call => .Primary | .Primary => .Primary

/-- Tags for the prefix parser actions stored in the rule table
(`type ParserFn`; tagged dispatch is used in place of Rust's function
pointers). -/
inductive PFn where
  | grouping | unary | number | strLit | literal | varName
  deriving DecidableEq, Repr

/-- Tag for the only infix parser action, `binary`. -/
inductive IFn where
  | binary
  deriving DecidableEq, Repr

/-- `compiler.rs` `struct ParserRule` (fields `prefix`, `infix`,
`precedence`). -/
structure ParserRule where
  pfxRule : Option PFn
  ifxRule : Option IFn
  precedence : Precedence
  deriving DecidableEq, Repr

/-- `compiler.rs` `fn get_rule`: the Pratt rule table.  `Question` and
`Colon` have no arm in the source's match; they are modelled as no-rule
tokens. -/
def getRule : Token → ParserRule
  | .LeftParen    => ⟨some .grouping, none, .None⟩
  | .RightParen   => ⟨none, none, .None⟩
  | .LeftBrace    => ⟨none, none, .None⟩
  | .RightBrace   => ⟨none, none, .None⟩
  | .Comma        => ⟨none, none, .None⟩
  | .Dot          => ⟨none, none, .None⟩
  | .Minus        => ⟨some .unary, some .binary, .Term⟩
  | .Plus         => ⟨none, some .binary, .Term⟩
  | .Semicolon    => ⟨none, none, .None⟩
  | .Slash        => ⟨none, some .binary, .Factor⟩
  | .Star         => ⟨none, some .binary, .Factor⟩
  | .Question     => ⟨none, none, .None⟩
  | .Colon        => ⟨none, none, .None⟩
  | .Bang         => ⟨some .unary, none, .None⟩
  | .BangEqual    => ⟨none, some .binary, .Equality⟩
  | .Equal        => ⟨none, none, .None⟩
  | .EqualEqual   => ⟨none, some .binary, .Equality⟩
  | .Greater      => ⟨none, some .binary, .Comparison⟩
  | .GreaterEqual => ⟨none, some .binary, .Comparison⟩
  | .Less         => ⟨none, some .binary, .Comparison⟩
  | .LessEqual    => ⟨none, some .binary, .Comparison⟩
  | .Identifier   => ⟨some .varName, none, .None⟩
  | .StrLiteral   => ⟨some .strLit, none, .None⟩
  | .Number       => ⟨some .number, none, .None⟩
  | .And          => ⟨none, none, .None⟩
  | .Class        => ⟨none, none, .None⟩
  | .Else         => ⟨none, none, .None⟩
  | .False        => ⟨some .literal, none, .None⟩
  | .For          => ⟨none, none, .None⟩
  | .Fun          => ⟨none, none, .None⟩
  | .If           => ⟨none, none, .None⟩
  | .Nil          => ⟨some .literal, none, .None⟩
  | .Or           => ⟨none, none, .None⟩
  | .Print        => ⟨none, none, .None⟩
  | .Return       => ⟨none, none, .None⟩
  | .Super        => ⟨none, none, .None⟩
  | .This         => ⟨none, none, .None⟩
  | .True         => ⟨some .literal, none, .None⟩
  | .Var          => ⟨none, none, .None⟩
  | .While        => ⟨none, none, .None⟩
  | .Error        => ⟨none, none, .None⟩
  | .Eof          => ⟨none, none, .None⟩

---------------------------------------------------------------------------
-- §6  Non-recursive compiler helpers (compiler.rs impl Compiler)
---------------------------------------------------------------------------

/-- `Compiler::line_number_of_prefix`. -/
def lineNumberOfPfx (st : CState) : Nat := st.previous.line

/-- `Compiler::emit_instruction` (no operand). -/
def emitInstruction (st : CState) (op : OpCode) : CState :=
  { st with chunk := st.chunk.writeOpcode op (lineNumberOfPfx st) }

/-- `Compiler::emit_instruction(..).with_operand(..)`. -/
def emitInstructionOperand (st : CState) (op : OpCode) (operand : Nat) : CState :=
  { st with chunk := st.chunk.writeOpcodeWithOperand op operand (lineNumberOfPfx st) }

/-- `Compiler::emit_instructions` (two opcodes, one line). -/
def emitInstructions (st : CState) (op1 op2 : OpCode) : CState :=
  let line := lineNumberOfPfx st
  { st with chunk := (st.chunk.writeOpcode op1 line).writeOpcode op2 line }

/-- `Compiler::emit_return`. -/
def emitReturn (st : CState) : CState := emitInstruction st OpCode.Return

/-- `Compiler::make_constant`: `add_constant` runs (appending to the pool)
and, when the index does not fit in a `u8`, "Too many constants in one
chunk" is reported and `0` returned. -/
def makeConstant (st : CState) (value : Value) : Nat × CState :=
  match st.chunk.addConstant value with
  | (some index, c') => (index, { st with chunk := c' })
  | (none, c') => (0, Parser.error { st with chunk := c' } "Too many constants in one chunk")

/-- `Compiler::emit_constant`. -/
def emitConstant (st : CState) (value : Value) : CState :=
  let (index, st) := makeConstant st value
  emitInstructionOperand st OpCode.Constant index

/-- `Compiler::identifier_constant`: interns the identifier text (via
`From<&str> for Value`) and adds it to the constant pool. -/
def identifierConstant (st : CState) (lexeme : Lexeme) : Nat × CState :=
  let (v, gc') := Value.ofStr st.gc lexeme.text
  makeConstant { st with gc := gc' } v

/-- The `for (i, local) in locals.iter().enumerate().rev()` walk of
`Compiler::resolve_local`; `i` starts at `length - 1`. -/
def resolveLocalAux (name : Lexeme) : List Local → Nat → Option (Local × Nat)
  | [], _ => none
  | l :: rest, i =>
    if l.text = name.text then some (l, i) else resolveLocalAux name rest (i - 1)

/-- `Compiler::resolve_local`: walks locals newest to oldest; an
uninitialized match reports "Cannot use X in its own initializer" and the
slot is still returned (`u8::try_from(i).ok()`). -/
def resolveLocal (st : CState) (name : Lexeme) : Option Nat × CState :=
  match resolveLocalAux name st.locals (st.locals.length - 1) with
  | none => (none, st)
  | some (l, i) =>
    let st :=
      if l.isUninit then
        Parser.error st ("Cannot use `" ++ String.mk name.text ++ "` in its own initializer")
      else st
    (if i < 256 then some i else none, st)

/-- `Compiler::add_local`: errors when 256 locals already exist
(`local_count() >= U8_COUNT`), else pushes an uninitialized local. -/
def addLocal (st : CState) (name : Lexeme) : CState :=
  if st.locals.length ≥ 256 then
    Parser.error st "Internal limit reached: too many variables declared"
  else { st with locals := { name := name, depth := none } :: st.locals }

/-- The redefinition check loop of `Compiler::declare_variable` (walks
newest to oldest; breaks at the first local in an outer scope). -/
def declareVarCheck (name : Lexeme) (scopeDepth : Int) : List Local → CState → CState
  | [], st => st
  | l :: rest, st =>
    if l.inOuterScope scopeDepth then st
    else
      let st :=
        if name.text = l.text then
          Parser.error st ("Already a variable called `" ++ String.mk name.text ++ "` in this scope")
        else st
      declareVarCheck name scopeDepth rest st

/-- `Compiler::declare_variable`. -/
def declareVariable (st : CState) : CState :=
  if st.scopeDepth = 0 then st
  else
    let name := st.previous
    let st := declareVarCheck name st.scopeDepth st.locals st
    addLocal st name

/-- `Compiler::parse_variable`. -/
def parseVariable (st : CState) (errorMessage : String) : Nat × CState :=
  let st := Parser.consume st Token.Identifier errorMessage
  let st := declareVariable st
  if st.scopeDepth > 0 then (0, st)
  else identifierConstant st st.previous

/-- `Compiler::mark_initialized`: sets the newest local's depth (the Rust
`unwrap` on an empty locals list is unreachable). -/
def markLocalReady (st : CState) : CState :=
  match st.locals with
  | [] => st
  | l :: rest => { st with locals := { l with depth := some st.scopeDepth } :: rest }

/-- `Compiler::define_variable`. -/
def defineVariable (st : CState) (global : Nat) : CState :=
  if st.scopeDepth > 0 then markLocalReady st
  else emitInstructionOperand st OpCode.DefineGlobal global

/-- `Compiler::begin_scope`. -/
def beginScope (st : CState) : CState := { st with scopeDepth := st.scopeDepth + 1 }

/-- The local-popping loop of `Compiler::end_scope`
(`has_locals_beyond_current_scope`; one `Pop` per removed local). -/
def endScopeLoop (line : Nat) (scopeDepth : Int) : List Local → Chunk → List Local × Chunk
  | [], c => ([], c)
  | l :: rest, c =>
    match l.depth with
    | some depth =>
      if depth > scopeDepth then endScopeLoop line scopeDepth rest (c.writeOpcode OpCode.Pop line)
      else (l :: rest, c)
    | none => (l :: rest, c)

/-- `Compiler::end_scope`. -/
def endScope (st : CState) : CState :=
  let st := { st with scopeDepth := st.scopeDepth - 1 }
  let (locals', chunk') := endScopeLoop (lineNumberOfPfx st) st.scopeDepth st.locals st.chunk
  { st with locals := locals', chunk := chunk' }

/-- `fn number`: parses the numeric literal (`[0-9]+ ('.' [0-9]+)?`) as a
double, modelled exactly as an unnormalized rational. -/
def digitsToNat : List Char → Nat → Nat
  | [], acc => acc
  | c :: rest, acc => digitsToNat rest (acc * 10 + (c.toNat - '0'.toNat))

/-- The `text.parse::<f64>()` of `fn number`, on the scanner's numeric
lexeme grammar. -/
def parseNumber (text : List Char) : F64 :=
  let intPart := text.takeWhile (fun c => c ≠ '.')
  let fracPart := (text.drop intPart.length).drop 1
  ⟨(digitsToNat intPart 0) * 10 ^ fracPart.length + digitsToNat fracPart 0,
   (10 : Int) ^ fracPart.length⟩

/-- `fn number` (prefix action). -/
def numberFn (st : CState) : CState :=
  emitConstant st (Value.Number (parseNumber st.previous.text))

/-- `fn string` (prefix action): strips the surrounding quotes and interns
the contents. -/
def stringFn (st : CState) : CState :=
  let literal := st.previous.text
  let contents := (literal.drop 1).dropLast
  let (v, gc') := Value.ofStr st.gc contents
  emitConstant { st with gc := gc' } v

/-- `fn literal` (prefix action). -/
def literalFn (st : CState) : CState :=
  match st.previous.token with
  | Token.False => emitInstruction st OpCode.False
  | Token.Nil => emitInstruction st OpCode.Nil
  | Token.True => emitInstruction st OpCode.True
  | _ => st   -- unreachable!()

---------------------------------------------------------------------------
-- §7  The mutually recursive parser/compiler (compiler.rs)
--
-- Every function takes a fuel argument bounding the recursion depth;
-- `none` means the computation did not finish within the given fuel.
-- All non-loop control flow is faithful to the source.
---------------------------------------------------------------------------

mutual

/-- `Compiler::parse_precedence`: the core of the Pratt parsing algorithm.
NOTE (faithful to the source): after the infix loop there is NO check for
an unconsumed `=` (no "invalid assignment target" error exists in this
code base). -/
def parsePrecedenceF : Nat → Precedence → CState → Option CState
  | 0, _, _ => none
  | n + 1, precedence, st =>
    let st := Parser.advance st
    let canAssign := precedence.toNat ≤ Precedence.Assignment.toNat
    match (getRule st.previous.token).pfxRule with
    | none =>
      some (Parser.error st "Could not figure out how to understand symbol in this context")
    | some pfn =>
      match runPrefixF n pfn canAssign st with
      | none => none
      | some st => infixLoopF n precedence canAssign st

/-- Dispatch on the prefix action tag stored in the rule table. -/
def runPrefixF : Nat → PFn → Bool → CState → Option CState
  | 0, _, _, _ => none
  | n + 1, pfn, canAssign, st =>
    match pfn with
    | .grouping => groupingF n st
    | .unary => unaryF n st
    | .number => some (numberFn st)
    | .strLit => some (stringFn st)
    | .literal => some (literalFn st)
    | .varName => variableF n canAssign st

/-- The `while precedence <= rule_from_current().precedence` loop of
`Compiler::parse_precedence`.  The only infix action is `binary`; a rule
with a defined precedence but no infix action would panic in Rust. -/
def infixLoopF : Nat → Precedence → Bool → CState → Option CState
  | 0, _, _, _ => none
  | n + 1, precedence, canAssign, st =>
    if precedence.toNat ≤ (getRule st.current.token).precedence.toNat then
      let st := Parser.advance st
      match (getRule st.previous.token).ifxRule with
      | some .binary =>
        match binaryF n st with
        | none => none
        | some st => infixLoopF n precedence canAssign st
      | none => some st   -- unreachable: the Rust expect() panics
    else some st

/-- `Compiler::expression`. -/
def expressionF : Nat → CState → Option CState
  | 0, _ => none
  | n + 1, st => parsePrecedenceF n Precedence.Assignment st

/-- `fn grouping` (prefix action). -/
def groupingF : Nat → CState → Option CState
  | 0, _ => none
  | n + 1, st =>
    match expressionF n st with
    | none => none
    | some st => some (Parser.consume st Token.RightParen "Expect \x27)\x27 after grouping.")

/-- `fn unary` (prefix action). -/
def unaryF : Nat → CState → Option CState
  | 0, _ => none
  | n + 1, st =>
    let operator := st.previous.token
    match parsePrecedenceF n Precedence.Unary st with
    | none => none
    | some st =>
      match operator with
      | Token.Bang => some (emitInstruction st OpCode.Not)
      | Token.Minus => some (emitInstruction st OpCode.Negate)
      | _ => some st   -- unreachable!()

/-- `fn binary` (infix action). -/
def binaryF : Nat → CState → Option CState
  | 0, _ => none
  | n + 1, st =>
    let operator := st.previous.token
    let rule := getRule operator
    match parsePrecedenceF n rule.precedence.higher st with
    | none => none
    | some st =>
      match operator with
      | Token.BangEqual => some (emitInstructions st OpCode.Equal OpCode.Not)
      | Token.EqualEqual => some (emitInstruction st OpCode.Equal)
      | Token.Greater => some (emitInstruction st OpCode.Greater)
      | Token.GreaterEqual => some (emitInstructions st OpCode.Less OpCode.Not)
      | Token.Less => some (emitInstruction st OpCode.Less)
      | Token.LessEqual => some (emitInstructions st OpCode.Greater OpCode.Not)
      | Token.Plus => some (emitInstruction st OpCode.Add)
      | Token.Minus => some (emitInstruction st OpCode.Subtract)
      | Token.Star => some (emitInstruction st OpCode.Multiply)
      | Token.Slash => some (emitInstruction st OpCode.Divide)
      | _ => some st   -- unreachable!()

/-- `fn variable` (prefix action). -/
def variableF : Nat → Bool → CState → Option CState
  | 0, _, _ => none
  | n + 1, canAssign, st => namedVariableF n st.previous canAssign st

/-- `Compiler::named_variable`: variable access or assignment.  The `=` is
only looked for when `can_assign` holds (Rust's short-circuiting `&&`). -/
def namedVariableF : Nat → Lexeme → Bool → CState → Option CState
  | 0, _, _, _ => none
  | n + 1, name, canAssign, st =>
    let (resolved, st) := resolveLocal st name
    let (getOp, setOp, arg, st) :=
      match resolved with
      | some arg => (OpCode.GetLocal, OpCode.SetLocal, arg, st)
      | none =>
        let (arg, st) := identifierConstant st name
        (OpCode.GetGlobal, OpCode.SetGlobal, arg, st)
    if canAssign then
      let (matched, st) := Parser.matchAndAdvance st Token.Equal
      if matched then
        match expressionF n st with
        | none => none
        | some st => some (emitInstructionOperand st setOp arg)
      else some (emitInstructionOperand st getOp arg)
    else some (emitInstructionOperand st getOp arg)

/-- `Compiler::declaration`: `var` declaration or statement; on panic mode,
synchronize. -/
def declarationF : Nat → CState → Option CState
  | 0, _ => none
  | n + 1, st =>
    let (matched, st) := Parser.matchAndAdvance st Token.Var
    match (if matched then varStatementF n st else statementF n st) with
    | none => none
    | some st => if st.panicMode then synchronizeF n st else some st

/-- `Compiler::statement`. -/
def statementF : Nat → CState → Option CState
  | 0, _ => none
  | n + 1, st =>
    let (mPrint, st) := Parser.matchAndAdvance st Token.Print
    if mPrint then printStatementF n st
    else
      let (mBrace, st) := Parser.matchAndAdvance st Token.LeftBrace
      if mBrace then
        match blockF n (beginScope st) with
        | none => none
        | some st => some (endScope st)
      else exprStatementF n st

/-- `Compiler::var_statement`. -/
def varStatementF : Nat → CState → Option CState
  | 0, _ => none
  | n + 1, st =>
    let (global, st) := parseVariable st "need a variable name after var"
    let r :=
      let (matched, st) := Parser.matchAndAdvance st Token.Equal
      if matched then expressionF n st
      else some (emitInstruction st OpCode.Nil)
    match r with
    | none => none
    | some st =>
      let st := Parser.consume st Token.Semicolon "expect ; after this variable declaration"
      some (defineVariable st global)

/-- `Compiler::expression_statement`: the trailing `Pop` discards the
expression's value. -/
def exprStatementF : Nat → CState → Option CState
  | 0, _ => none
  | n + 1, st =>
    match expressionF n st with
    | none => none
    | some st =>
      let st := Parser.consume st Token.Semicolon "expected semicolon to end this statement"
      some (emitInstruction st OpCode.Pop)

/-- `Compiler::print_statement`. -/
def printStatementF : Nat → CState → Option CState
  | 0, _ => none
  | n + 1, st =>
    match expressionF n st with
    | none => none
    | some st =>
      let st := Parser.consume st Token.Semicolon "expected semicolon to end print statement"
      some (emitInstruction st OpCode.Print)

/-- The declaration loop of `Compiler::block`. -/
def blockLoopF : Nat → CState → Option CState
  | 0, _ => none
  | n + 1, st =>
    if !(Parser.check st Token.RightBrace) && !(Parser.check st Token.Eof) then
      match declarationF n st with
      | none => none
      | some st => blockLoopF n st
    else some st

/-- `Compiler::block`. -/
def blockF : Nat → CState → Option CState
  | 0, _ => none
  | n + 1, st =>
    match blockLoopF n st with
    | none => none
    | some st => some (Parser.consume st Token.RightBrace "expected \x27\x7d\x27 to end block")

end

/-- The `while !match_and_advance(Eof)` loop of `Compiler::compile`. -/
def compileLoopF : Nat → CState → Option CState
  | 0, _ => none
  | n + 1, st =>
    let (matched, st) := Parser.matchAndAdvance st Token.Eof
    if matched then some st
    else
      match declarationF n st with
      | none => none
      | some st => compileLoopF n st

/-- `Parser::new` (which scans the first token) combined with
`Compiler::new`: the initial compiler state over a source text.  A fresh
active GC (empty string store) is installed, as in `VM::interpret`. -/
def initCompiler (source : List Char) : CState :=
  let sc := Scanner.new source
  let (firstToken, sc) := sc.scanToken
  { scanner := sc
    previous := Scanner.makeSentinel "<before first token>".toList
    current := firstToken
    hadError := false
    panicMode := false
    errors := []
    chunk := Chunk.new
    locals := []
    scopeDepth := 0
    gc := [] }

/-- `error.rs` `enum InterpretationError`. -/
inductive InterpretationError where
  | CompileError
  | RuntimeError
  deriving DecidableEq, Repr

/-- `Compiler::compile` up to and including `end_compiler` (which appends
the trailing `Return`): the final compiler state, or `none` if the
compiler did not finish within the given fuel. -/
def compileCState (fuel : Nat) (source : List Char) : Option CState :=
  (compileLoopF fuel (initCompiler source)).map emitReturn

/-- The result of `Compiler::compile`: the built chunk, or `CompileError`
when `had_error` is set. -/
def compileResult (st : CState) : Except InterpretationError Chunk :=
  if st.hadError then Except.error InterpretationError.CompileError
  else Except.ok st.chunk

/-- `compiler.rs` `pub fn compile`, with fuel. -/
def compileF (fuel : Nat) (source : List Char) : Option (Except InterpretationError Chunk) :=
  (compileCState fuel source).map compileResult

---------------------------------------------------------------------------
-- §8  Virtual machine (vm.rs)
---------------------------------------------------------------------------

/-- `HashMap::get` on the globals table (`HashMap<&str, Value>`; `&str`
keys hash and compare by character data). -/
def gLookup : List (String × Value) → String → Option Value
  | [], _ => none
  | (k, v) :: rest, key => if k = key then some v else gLookup rest key

/-- `HashMap::insert` on the globals table: replaces in place and returns
the previous value, or appends and returns `none`. -/
def gInsert : List (String × Value) → String → Value → Option Value × List (String × Value)
  | [], key, value => (none, [(key, value)])
  | (k, v) :: rest, key, value =>
    if k = key then (some v, (key, value) :: rest)
    else
      let (old, rest') := gInsert rest key value
      (old, (k, v) :: rest')

/-- `HashMap::remove` on the globals table (the returned previous value is
discarded at the call site). -/
def gRemove : List (String × Value) → String → List (String × Value)
  | [], _ => []
  | (k, v) :: rest, key => if k = key then gRemove rest key else (k, v) :: gRemove rest key

/-- The mutable state of `vm.rs` `struct VmWithChunk` (the borrowed chunk
is passed separately; the active GC travels with the state because `Add`
on strings interns the concatenation). -/
structure VmState where
  ip : Nat
  stack : List Value   -- bottom of the value stack first; push/pop at the end
  globals : List (String × Value)
  gc : GCStrings
  deriving DecidableEq, Repr

/-- The outcome of one iteration of the `VmWithChunk::run` loop. -/
inductive StepResult where
  | continue (st : VmState)
  | halt (st : VmState)
  | fail (message : String) (line : Nat) (st : VmState)
  | panicked (message : String)
  deriving DecidableEq, Repr

/-- `VmWithChunk::runtime_error`: prints the message and the line for the
current `ip`, clears the stack, and aborts the run.  The `expect("line
number")` panics when `ip` has run past the line table. -/
def runtimeError (chunk : Chunk) (st : VmState) (message : String) : StepResult :=
  match chunk.lineNumberFor st.ip with
  | none => StepResult.panicked "line number"
  | some line => StepResult.fail message line { st with stack := [] }

/-- `VmWithChunk::pop`: pops the top of the value stack; panics
("value stack is empty") on an empty stack. -/
def vmPop (st : VmState) : Except String (Value × VmState) :=
  match st.stack.getLast? with
  | none => Except.error "value stack is empty"
  | some v => Except.ok (v, { st with stack := st.stack.dropLast })

/-- `VmWithChunk::peek`: `stack.iter().rev().nth(n)`; panics ("ran off the
stack") when out of range. -/
def vmPeek (st : VmState) (n : Nat) : Except String Value :=
  match st.stack.reverse.get? n with
  | none => Except.error "ran off the stack"
  | some v => Except.ok v

/-- `VmWithChunk::binary_op` over a numeric-valued operator. -/
def binaryOpNum (chunk : Chunk) (st : VmState) (op : F64 → F64 → F64) : StepResult :=
  match vmPop st with
  | Except.error m => StepResult.panicked m
  | Except.ok (rhs, st) =>
    match vmPop st with
    | Except.error m => StepResult.panicked m
    | Except.ok (lhs, st) =>
      match lhs, rhs with
      | Value.Number a, Value.Number b =>
        StepResult.continue { st with stack := st.stack ++ [Value.Number (op a b)] }
      | _, _ => runtimeError chunk st "Operands must be numbers"

/-- `VmWithChunk::binary_op` over a Boolean-valued operator. -/
def binaryOpBool (chunk : Chunk) (st : VmState) (op : F64 → F64 → Bool) : StepResult :=
  match vmPop st with
  | Except.error m => StepResult.panicked m
  | Except.ok (rhs, st) =>
    match vmPop st with
    | Except.error m => StepResult.panicked m
    | Except.ok (lhs, st) =>
      match lhs, rhs with
      | Value.Number a, Value.Number b =>
        StepResult.continue { st with stack := st.stack ++ [Value.Boolean (op a b)] }
      | _, _ => runtimeError chunk st "Operands must be numbers"

/-- One iteration of the `loop` in `VmWithChunk::run`: fetch the byte at
`ip` (panicking if out of range or not an opcode, as the `expect`s do),
dispatch, and either continue, halt (`Return`), raise a runtime error, or
panic. -/
def vmStep (chunk : Chunk) (st : VmState) : StepResult :=
  match chunk.code.get? st.ip with
  | none => StepResult.panicked "I have an instruction pointer within range"
  | some byte =>
    let st := { st with ip := st.ip + 1 }
    match byteToOpcode byte with
    | none => StepResult.panicked "fetched invalid opcode"
    | some op =>
      match op with
      | OpCode.Constant =>
        match chunk.code.get? st.ip with
        | none => StepResult.panicked "there should be an operand"
        | some idx =>
          let st := { st with ip := st.ip + 1 }
          match chunk.constants.get? idx with
          | none => StepResult.panicked "there should be a constant at this index"
          | some v => StepResult.continue { st with stack := st.stack ++ [v] }
      | OpCode.Nil => StepResult.continue { st with stack := st.stack ++ [Value.Nil] }
      | OpCode.True => StepResult.continue { st with stack := st.stack ++ [Value.Boolean true] }
      | OpCode.False => StepResult.continue { st with stack := st.stack ++ [Value.Boolean false] }
      | OpCode.Pop =>
        match vmPop st with
        | Except.error m => StepResult.panicked m
        | Except.ok (_, st) => StepResult.continue st
      | OpCode.GetLocal =>
        match chunk.code.get? st.ip with
        | none => StepResult.panicked "operand"
        | some slot =>
          let st := { st with ip := st.ip + 1 }
          match st.stack.get? slot with
          | none => StepResult.panicked "local variable"
          | some v => StepResult.continue { st with stack := st.stack ++ [v] }
      | OpCode.SetLocal =>
        -- NOTE (faithful to the source): the value is POPPED from the
        -- stack (`let value = self.pop()`), then written to
        -- `self.stack[slot]` (which panics if the index is now out of
        -- bounds).
        match chunk.code.get? st.ip with
        | none => StepResult.panicked "operand"
        | some slot =>
          let st := { st with ip := st.ip + 1 }
          match vmPop st with
          | Except.error m => StepResult.panicked m
          | Except.ok (value, st) =>
            if slot < st.stack.length then
              StepResult.continue { st with stack := st.stack.set slot value }
            else StepResult.panicked "index out of bounds"
      | OpCode.GetGlobal =>
        match nextStringConstant chunk st with
        | Except.error m => StepResult.panicked m
        | Except.ok (r, st) =>
          match gLookup st.globals r.data with
          | some v => StepResult.continue { st with stack := st.stack ++ [v] }
          | none => runtimeError chunk st ("undefined global variable: " ++ r.data)
      | OpCode.DefineGlobal =>
        match nextStringConstant chunk st with
        | Except.error m => StepResult.panicked m
        | Except.ok (r, st) =>
          match vmPop st with
          | Except.error m => StepResult.panicked m
          | Except.ok (value, st) =>
            StepResult.continue { st with globals := (gInsert st.globals r.data value).2 }
      | OpCode.SetGlobal =>
        match nextStringConstant chunk st with
        | Except.error m => StepResult.panicked m
        | Except.ok (r, st) =>
          match vmPeek st 0 with
          | Except.error m => StepResult.panicked m
          | Except.ok value =>
            let inserted := gInsert st.globals r.data value
            if inserted.1.isNone then
              -- tried to assign to an undefined global variable: first
              -- clean up the variable accidentally created, THEN error
              let st := { st with globals := gRemove inserted.2 r.data }
              runtimeError chunk st ("Undefined variable: \x27" ++ r.data ++ "\x27")
            else StepResult.continue { st with globals := inserted.2 }
      | OpCode.Equal =>
        match vmPop st with
        | Except.error m => StepResult.panicked m
        | Except.ok (rhs, st) =>
          match vmPop st with
          | Except.error m => StepResult.panicked m
          | Except.ok (lhs, st) =>
            StepResult.continue { st with stack := st.stack ++ [Value.Boolean (lhs.equal rhs)] }
      | OpCode.Greater => binaryOpBool chunk st F64.bgt
      | OpCode.Less => binaryOpBool chunk st F64.blt
      | OpCode.Add =>
        match vmPop st with
        | Except.error m => StepResult.panicked m
        | Except.ok (rhs, st) =>
          match vmPop st with
          | Except.error m => StepResult.panicked m
          | Except.ok (lhs, st) =>
            match lhs, rhs with
            | Value.Number a, Value.Number b =>
              StepResult.continue { st with stack := st.stack ++ [Value.Number (F64.add a b)] }
            | Value.LoxString a, Value.LoxString b =>
              -- format!("{a}{b}").into(): the concatenation is interned
              let (v, gc') := Value.ofStr st.gc (a.data ++ b.data).toList
              StepResult.continue { st with stack := st.stack ++ [v], gc := gc' }
            | _, _ => runtimeError chunk st "Can only add numbers or strings"
      | OpCode.Subtract => binaryOpNum chunk st F64.sub
      | OpCode.Multiply => binaryOpNum chunk st F64.mul
      | OpCode.Divide => binaryOpNum chunk st F64.div
      | OpCode.Not =>
        match vmPop st with
        | Except.error m => StepResult.panicked m
        | Except.ok (v, st) =>
          StepResult.continue { st with stack := st.stack ++ [Value.Boolean v.isFalsy] }
      | OpCode.Negate =>
        match vmPop st with
        | Except.error m => StepResult.panicked m
        | Except.ok (v, st) =>
          match v with
          | Value.Number number =>
            StepResult.continue { st with stack := st.stack ++ [Value.Number (F64.neg number)] }
          | _ => runtimeError chunk st "Operand must be a number"
      | OpCode.Print =>
        -- println!("{}", self.pop()): the pop is modelled; stdout is I/O
        match vmPop st with
        | Except.error m => StepResult.panicked m
        | Except.ok (_, st) => StepResult.continue st
      | OpCode.Return => StepResult.halt st
where
  /-- `VmWithChunk::next_string_constant`: fetches the operand, resolves
  it in the constant pool, and requires a string (the three `expect`s
  panic otherwise). -/
  nextStringConstant (chunk : Chunk) (st : VmState) : Except String (StrRef × VmState) :=
  match chunk.code.get? st.ip with
  | none => Except.error "there should be an operand"
  | some idx =>
    let st := { st with ip := st.ip + 1 }
    match chunk.constants.get? idx with
    | none => Except.error "there should be a constant here"
    | some v =>
      match v.toStr with
      | none => Except.error "the name must be a string"
      | some r => Except.ok (r, st)

/-- The outcome of a whole `VmWithChunk::run`. -/
inductive RunOutcome where
  | ok (st : VmState)
  | runtimeErr (message : String) (line : Nat) (st : VmState)
  | panicked (message : String)
  deriving DecidableEq, Repr

/-- The fetch/decode/execute loop of `VmWithChunk::run`, with fuel. -/
def runF : Nat → Chunk → VmState → Option RunOutcome
  | 0, _, _ => none
  | n + 1, chunk, st =>
    match vmStep chunk st with
    | StepResult.continue st => runF n chunk st
    | StepResult.halt st => some (RunOutcome.ok st)
    | StepResult.fail m line st => some (RunOutcome.runtimeErr m line st)
    | StepResult.panicked m => some (RunOutcome.panicked m)

/-- The observable outcome of `VM::interpret`. -/
inductive InterpretOutcome where
  | compileErr
  | runOk
  | runtimeErr (message : String) (line : Nat)
  | panicked (message : String)
  deriving DecidableEq, Repr

/-- `VM::interpret`: install a fresh GC, compile, and run the chunk on a
fresh VM (empty stack, empty globals).  `none` = out of fuel. -/
def interpretF (fuel : Nat) (source : List Char) : Option InterpretOutcome :=
  match compileCState fuel source with
  | none => none
  | some st =>
    if st.hadError then some InterpretOutcome.compileErr
    else
      match runF fuel st.chunk { ip := 0, stack := [], globals := [], gc := st.gc } with
      | none => none
      | some (RunOutcome.ok _) => some InterpretOutcome.runOk
      | some (RunOutcome.runtimeErr m line _) => some (InterpretOutcome.runtimeErr m line)
      | some (RunOutcome.panicked m) => some (InterpretOutcome.panicked m)

---------------------------------------------------------------------------
-- §9  The active-GC lifecycle (gc.rs)
---------------------------------------------------------------------------

/-- The process-wide `static mut ACTIVE_GC: Option<GC>`. -/
abbrev ActiveGCState := Option GCStrings

/-- `GC::into_active_gc`: unconditionally overwrites the global slot
(`ACTIVE_GC = Some(self)`).  The `Except` channel records a panic; this
function has no panic path. -/
def intoActiveGC (gc : GCStrings) (_state : ActiveGCState) : Except String ActiveGCState :=
  Except.ok (some gc)

/-- `ActiveGC::install`: `GC::default().into_active_gc()`.  NOTE (faithful
to the source): there is no check of the current state and no panic; an
already-active GC is silently replaced. -/
def ActiveGC.install (state : ActiveGCState) : Except String ActiveGCState :=
  intoActiveGC [] state

/-- `impl Drop for ActiveGC`: takes the global GC; panics when none is
installed. -/
def ActiveGC.dropHandle (state : ActiveGCState) : Except String ActiveGCState :=
  match state with
  | none => Except.error "Trying to drop active GC, but it\x27s not installed"
  | some _ => Except.ok none

---------------------------------------------------------------------------
-- §10  Helper lemmas
---------------------------------------------------------------------------

/-- `gInsert` returns the previously bound value, i.e. exactly what
`gLookup` sees. -/
theorem gInsert_fst (g : List (String × Value)) (k : String) (v : Value) :
    (gInsert g k v).1 = gLookup g k := by
  induction g with
  | nil => rfl
  | cons p rest ih =>
    obtain ⟨k', v'⟩ := p
    by_cases h : k' = k
    · simp [gInsert, gLookup, h]
    · simp [gInsert, gLookup, h, ih]

/-- Inserting an absent key and then removing it restores the table. -/
theorem gRemove_gInsert_absent (g : List (String × Value)) (k : String) (v : Value)
    (h : gLookup g k = none) : gRemove (gInsert g k v).2 k = g := by
  induction g with
  | nil => simp [gInsert, gRemove]
  | cons p rest ih =>
    obtain ⟨k', v'⟩ := p
    have hk : k' ≠ k := by
      intro e
      rw [gLookup, if_pos e] at h
      exact Option.noConfusion h
    have h' : gLookup rest k = none := by
      rw [gLookup, if_neg hk] at h
      exact h
    simp [gInsert, gRemove, hk, ih h']

/-- The index of a freshly appended string is the old length of the
store. -/
theorem gcIdxOf_append_not_mem (gc : List String) (s : String) (h : s ∉ gc) :
    gcIdxOf (gc ++ [s]) s = gc.length := by
  induction gc with
  | nil => simp [gcIdxOf]
  | cons x rest ih =>
    have hx : x ≠ s := by
      intro e
      exact h (by simp [e])
    have h' : s ∉ rest := fun hm => h (by simp [hm])
    simp [gcIdxOf, hx, ih h']

/-- A state stuck in `Parser::synchronize`'s loop: the loop body never
advances the token stream, so no amount of fuel finishes it. -/
theorem syncLoopF_stuck (st : CState) (h1 : ¬st.current.token = Token.Eof)
    (h2 : ¬st.previous.token = Token.Semicolon) (h3 : isSyncPoint st.current.token = false) :
    ∀ n, syncLoopF n st = none := by
  intro n
  induction n with
  | zero => rfl
  | succ n ih =>
    rw [syncLoopF, if_neg h1, if_neg h2, h3]
    simpa using ih

---------------------------------------------------------------------------
-- §11  Claim theorems
---------------------------------------------------------------------------

/-- C1: the claim states that `SetLocal` stores the peeked top of the
stack without popping, leaving the stack depth and top unchanged.  The
source instead POPS the value (`let value = self.pop()`) before writing
`self.stack[slot]`: executing `SetLocal 0` on the stack `[true, nil]`
leaves a stack of depth 1, not 2. -/
theorem C1_setLocal_pops_concrete :
    vmStep ⟨[6, 0, 20], [], [1, 1, 1]⟩ ⟨0, [Value.Boolean true, Value.Nil], [], []⟩ =
      StepResult.continue ⟨2, [Value.Nil], [], []⟩ ∧
    ([Value.Nil].length = 1 ∧ [Value.Boolean true, Value.Nil].length = 2) :=
  ⟨rfl, rfl, rfl⟩

/-- C2: the claim states that every successfully compiled well-typed
program reaches `Return` with its starting stack depth.  Because
`SetLocal` pops (see C1), the well-typed program `{ var a = 1; a = 2; }`
compiles successfully but underflows the value stack: the VM panics with
"value stack is empty" at the scope-exit `Pop` and never reaches
`Return`. -/
theorem C2_net_depth_violated :
    compileF 100 "{ var a = 1; a = 2; }".toList =
      some (Except.ok ⟨[0, 0, 0, 1, 6, 0, 4, 4, 20],
        [Value.Number ⟨1, 1⟩, Value.Number ⟨2, 1⟩], [1, 1, 1, 1, 1, 1, 1, 1, 1]⟩) ∧
    interpretF 100 "{ var a = 1; a = 2; }".toList =
      some (InterpretOutcome.panicked "value stack is empty") :=
  ⟨rfl, rfl⟩

/-- C4 counterexample: parsing the expression of `1 = 2;` runs with
`can_assign` true (minimum precedence `Assignment`), the `number` prefix
does not consume the `=`, and Pratt parsing finishes with the current
token `=` — yet no error at all is reported ("invalid assignment target"
does not exist in this code base). -/
theorem C4_no_assignment_target_error :
    (expressionF 20 (initCompiler "1 = 2;".toList)).map
        (fun st => (st.current.token, st.hadError, st.errors)) =
      some (Token.Equal, false, []) :=
  rfl

/-- C4 amended: `parse_precedence` performs no trailing-`=` check; the
stray `=` left by `1 = 2;` is instead diagnosed by the enclosing
expression statement as a missing semicolon. -/
theorem C4_stray_equal_is_semicolon_error :
    (exprStatementF 30 (initCompiler "1 = 2;".toList)).map
        (fun st => (st.hadError, st.errors)) =
      some (true, ["expected semicolon to end this statement"]) :=
  rfl

/-- C5 counterexample: at global scope (`scope_depth == 0`) no local is
declared, so the initializer's `a` resolves as a global read and
`var a = a;` compiles WITHOUT any error (the failure is deferred to
run time). -/
theorem C5_global_self_init_compiles :
    (compileCState 50 "var a = a;".toList).map (fun st => (st.hadError, st.errors)) =
      some (false, []) ∧
    (compileF 50 "var a = a;".toList).map Except.isOk = some true :=
  ⟨rfl, rfl⟩

/-- C5 amended: inside a local scope the just-declared local is still
uninitialized while its initializer is compiled, so `{ var a = a; }`
fails with a CompileError carrying "Cannot use `a` in its own
initializer". -/
theorem C5_local_self_init_errors :
    (compileCState 50 "{ var a = a; }".toList).map (fun st => (st.hadError, st.errors)) =
      some (true, ["Cannot use `a` in its own initializer"]) ∧
    compileF 50 "{ var a = a; }".toList =
      some (Except.error InterpretationError.CompileError) :=
  ⟨rfl, rfl⟩

/-- C7 counterexample: `ActiveGC::install` performs no check of the
process-wide slot and has no panic path: installing while an interner is
already active returns normally and silently replaces it with a fresh
empty interner. -/
theorem C7_second_install_succeeds :
    ActiveGC.install (some ["hello"]) = Except.ok (some []) :=
  rfl

/-- C7 amended: acquiring the interner never panics, regardless of
whether one is already active; the previous interner is silently
replaced by a fresh one (its strings are lost). -/
theorem C7_install_never_panics :
    ∀ state : ActiveGCState, ActiveGC.install state = Except.ok (some []) :=
  fun _ => rfl

/-- C8 counterexample: `Chunk::add_constant` writes the value into the
pool BEFORE checking that the index fits in a byte, so a chunk that
already holds 256 constants ends up with 257 entries even though `none`
is returned. -/
theorem C8_full_pool_still_appends :
    (Chunk.addConstant ⟨[], List.replicate 256 Value.Nil, []⟩ Value.Nil).1 = none ∧
    (Chunk.addConstant ⟨[], List.replicate 256 Value.Nil, []⟩ Value.Nil).2.constants.length = 257 :=
  ⟨rfl, by simp [Chunk.addConstant]⟩

/-- C8 amended: with at least 256 constants present, `add_constant`
returns `none` but still appends the value; the pool can exceed 256
entries, and the overflow surfaces as a compile error only because the
caller treats `none` as "Too many constants in one chunk". -/
theorem C8_addConstant_overflow (c : Chunk) (v : Value) (h : 256 ≤ c.constants.length) :
    (c.addConstant v).1 = none ∧ (c.addConstant v).2.constants = c.constants ++ [v] := by
  refine ⟨?_, rfl⟩
  simp only [Chunk.addConstant]
  rw [if_neg]
  omega

/-- C8 witness: the amended statement at a concrete 256-constant chunk. -/
theorem C8_addConstant_overflow_witness :
    (Chunk.addConstant ⟨[], List.replicate 256 Value.Nil, []⟩ Value.Nil).1 = none ∧
    (Chunk.addConstant ⟨[], List.replicate 256 Value.Nil, []⟩ Value.Nil).2.constants =
      List.replicate 256 Value.Nil ++ [Value.Nil] :=
  C8_addConstant_overflow ⟨[], List.replicate 256 Value.Nil, []⟩ Value.Nil (by simp)

/-- C10: storing the same string twice returns identical references (the
same allocation address and data) and leaves the store unchanged, and
two equal string literals turned into `Value`s produce literally the
same `LoxString` reference. -/
theorem C10_intern_canonical (gc : GCStrings) (s : String) (text : List Char) :
    ((GC.storeString (GC.storeString gc s).2 s).1 = (GC.storeString gc s).1 ∧
     (GC.storeString (GC.storeString gc s).2 s).2 = (GC.storeString gc s).2) ∧
    (Value.ofStr (Value.ofStr gc text).2 text).1 = (Value.ofStr gc text).1 := by
  have key : ∀ (g : List String) (t : String),
      (GC.storeString (GC.storeString g t).2 t).1 = (GC.storeString g t).1 ∧
      (GC.storeString (GC.storeString g t).2 t).2 = (GC.storeString g t).2 := by
    intro g t
    by_cases h : t ∈ g
    · simp [GC.storeString, h]
    · have hmem : t ∈ g ++ [t] := by simp
      simp [GC.storeString, h, hmem, gcIdxOf_append_not_mem g t h]
  refine ⟨key gc s, ?_⟩
  simp only [Value.ofStr]
  rw [(key gc (String.mk text)).1]

/-- The initial compiler state over the source `1 1` (an expression
statement missing its semicolon). -/
def st11 : CState := initCompiler "1 1".toList

/-- The state in which the first declaration of `1 1` finishes: the
missing-semicolon error has been reported, panic mode is set, and both
`previous` and `current` are `Number` lexemes — neither a just-passed
semicolon nor a statement-starting keyword. -/
def st11stuck : CState := (statementF 5 st11).getD st11

/-- The statement part of the first declaration of `1 1` finishes in
`st11stuck` at every sufficient fuel (fuel bounds only recursion depth,
and the computation is fuel-independent once it finishes). -/
theorem statementF_st11 (m : Nat) : statementF (m + 5) st11 = some st11stuck :=
  rfl

/-- On the source `1 1`, `Compiler::declaration` never finishes: the
statement part ends in panic mode with `previous = current = Number`, and
`Parser::synchronize`'s loop — whose body never advances — cannot exit
from that state. -/
theorem declarationF_st11_none (n : Nat) : declarationF n st11 = none := by
  match n with
  | 0 => rfl
  | 1 => rfl
  | 2 => rfl
  | 3 => rfl
  | 4 => rfl
  | 5 => rfl
  | m + 6 =>
    have heq : declarationF (m + 6) st11 =
        (match statementF (m + 5) st11 with
         | none => none
         | some st => if st.panicMode then synchronizeF (m + 5) st else some st) := rfl
    rw [heq, statementF_st11 m]
    have hp : st11stuck.panicMode = true := rfl
    simp only [hp, if_true]
    exact syncLoopF_stuck _ (by decide) (by decide) (by decide) (m + 5)

/-- The compile loop on `1 1` never finishes, at any fuel. -/
theorem compileLoopF_st11_none (n : Nat) : compileLoopF n st11 = none := by
  match n with
  | 0 => rfl
  | k + 1 =>
    have heq : compileLoopF (k + 1) st11 =
        (match declarationF k st11 with
         | none => none
         | some st => compileLoopF k st) := rfl
    rw [heq, declarationF_st11_none k]

/-- C3: the claim states that panic-mode synchronization discards tokens
until a statement boundary, so `compile(source)` terminates on every
input.  The source's `Parser::synchronize` loop never advances the token
stream, so on the input `1 1` (whose first statement ends in panic mode
with `previous` and `current` both `Number`) compilation diverges: no
amount of fuel completes it. -/
theorem C3_compile_diverges_on_1_1 :
    ∀ fuel, compileF fuel "1 1".toList = none := by
  intro fuel
  have h : compileLoopF fuel (initCompiler "1 1".toList) = none := compileLoopF_st11_none fuel
  simp only [compileF, compileCState, h]
  rfl

/-- C6: executing `SetGlobal` whose operand resolves to the string
constant `r`.  When the name is absent from the globals table the run
aborts with the runtime error "Undefined variable: '<name>'" and the
globals table is exactly what it was before the instruction (the
insert-then-remove pair collapses to the identity); when the name is
present, the peeked top of the stack is assigned to it without popping
(the stack is unchanged). -/
theorem C6_setGlobal_semantics (chunk : Chunk) (st : VmState) (b : Nat) (r : StrRef)
    (L : Nat) (topv : Value)
    (hop : chunk.code.get? st.ip = some 9)
    (hb : chunk.code.get? (st.ip + 1) = some b)
    (hc : chunk.constants.get? b = some (Value.LoxString r))
    (htop : st.stack.reverse.get? 0 = some topv)
    (hline : chunk.lines.get? (st.ip + 2) = some L) :
    (gLookup st.globals r.data = none →
        vmStep chunk st =
          StepResult.fail ("Undefined variable: \x27" ++ r.data ++ "\x27") L
            { st with ip := st.ip + 2, stack := [] }) ∧
    (∀ v0, gLookup st.globals r.data = some v0 →
        vmStep chunk st =
          StepResult.continue
            { st with ip := st.ip + 2, globals := (gInsert st.globals r.data topv).2 }) := by
  have hbyte : byteToOpcode 9 = some OpCode.SetGlobal := rfl
  obtain ⟨ip, stack, globals, gc⟩ := st
  simp only at hop hb hc htop hline
  constructor
  · intro hnone
    have hold : (gInsert globals r.data topv).1 = none := by
      rw [gInsert_fst]; exact hnone
    have hrem : gRemove (gInsert globals r.data topv).2 r.data = globals :=
      gRemove_gInsert_absent _ _ _ hnone
    simp only [vmStep, hop, hbyte, vmStep.nextStringConstant, hb, hc, Value.toStr, vmPeek,
               htop, hold, runtimeError, Chunk.lineNumberFor, hline, hrem, Option.isNone]
    rfl
  · intro v0 hsome
    have hold : (gInsert globals r.data topv).1 = some v0 := by
      rw [gInsert_fst]; exact hsome
    simp only [vmStep, hop, hbyte, vmStep.nextStringConstant, hb, hc, Value.toStr, vmPeek,
               htop, hold, Option.isNone]
    rfl

/-- C6 witness: a concrete chunk `[SetGlobal 0, Return]` with the string
constant `"x"`, an empty globals table, and the stack `[nil]`. -/
theorem C6_setGlobal_witness :
    vmStep ⟨[9, 0, 20], [Value.LoxString ⟨0, "x"⟩], [1, 1, 1]⟩ ⟨0, [Value.Nil], [], []⟩ =
      StepResult.fail ("Undefined variable: \x27" ++ "x" ++ "\x27") 1
        { ip := 2, stack := [], globals := [], gc := [] } :=
  (C6_setGlobal_semantics ⟨[9, 0, 20], [Value.LoxString ⟨0, "x"⟩], [1, 1, 1]⟩
      ⟨0, [Value.Nil], [], []⟩ 0 ⟨0, "x"⟩ 1 Value.Nil rfl rfl rfl rfl rfl).1 rfl

/-- C9: with fewer than 256 constants, `add_constant` returns the index
equal to the pool size before the call and appends the value at the end
(insertion order is preserved); `make_constant` on a chunk that already
holds 256 constants reports "Too many constants in one chunk" (of which
"Too many constants" is the first 18 characters) and sets `had_error`,
and any compilation whose final state has `had_error` fails with a
CompileError. -/
theorem C9_addConstant_order_and_overflow :
    (∀ (c : Chunk) (v : Value), c.constants.length < 256 →
        (c.addConstant v).1 = some c.constants.length ∧
        (c.addConstant v).2.constants = c.constants ++ [v]) ∧
    (∀ (st : CState) (v : Value), st.chunk.constants.length = 256 → st.panicMode = false →
        (makeConstant st v).2.errors = st.errors ++ ["Too many constants in one chunk"] ∧
        (makeConstant st v).2.hadError = true ∧
        (makeConstant st v).1 = 0) ∧
    (∀ st : CState, st.hadError = true →
        compileResult st = Except.error InterpretationError.CompileError) ∧
    "Too many constants in one chunk".take 18 = "Too many constants" := by
  refine ⟨?_, ?_, ?_, by decide⟩
  · intro c v h
    exact ⟨by simp only [Chunk.addConstant]; rw [if_pos h], rfl⟩
  · intro st v h hpanic
    have hfull : ¬st.chunk.constants.length < 256 := by omega
    simp only [makeConstant, Chunk.addConstant, if_neg hfull, Parser.error, errorAt, hpanic,
               Bool.false_eq_true, if_neg, ite_false]
    exact ⟨trivial, trivial, trivial⟩
  · intro st h
    simp only [compileResult, h, if_true]

/-- C9 witness: the in-order part on an empty chunk and the overflow part
on a compiler state whose chunk already holds 256 constants. -/
theorem C9_addConstant_witness :
    ((Chunk.new.addConstant Value.Nil).1 = some Chunk.new.constants.length ∧
     (Chunk.new.addConstant Value.Nil).2.constants = Chunk.new.constants ++ [Value.Nil]) ∧
    ((makeConstant { initCompiler [] with chunk := ⟨[], List.replicate 256 Value.Nil, []⟩ }
        Value.Nil).2.errors =
      ({ initCompiler [] with chunk := ⟨[], List.replicate 256 Value.Nil, []⟩ } : CState).errors ++
        ["Too many constants in one chunk"]) :=
  ⟨C9_addConstant_order_and_overflow.1 Chunk.new Value.Nil (by decide),
   (C9_addConstant_order_and_overflow.2.1
      { initCompiler [] with chunk := ⟨[], List.replicate 256 Value.Nil, []⟩ }
      Value.Nil (by simp) rfl).1⟩
